import Mathlib

/-!
# ChatBuddy core: a shallow embedding of the session / auth / chat-store logic

This file embeds, in Lean 4, the data model and operations of the ChatBuddy
messaging repository (`src/utils/auth.ts`, `src/utils/jwt.ts`,
`src/utils/webDatabase.ts` and the hook files): the session registry, the
JWT-style token utilities, the auth service, and the chat/message store.
Persistent tables are modelled as Lean lists in insertion order; SQL / Prisma
`where` clauses become list filters; wall-clock time (`Date.now()`,
SQL `NOW()`) is threaded as an explicit `Nat` parameter (milliseconds or
seconds, as in the corresponding source site); database-generated values
(fresh row ids, timestamps) become explicit parameters or a fresh-id counter.
Theorems at the end settle the specification claims against these
definitions.
-/

namespace ChatBuddy

/-! ## Session registry

`user_sessions` rows, per the Prisma schema / `migration.sql`:
`id, user_id, token_hash, expires_at, created_at, last_used`.
`expiresAt`, `createdAt`, `lastUsed` are timestamps in milliseconds.
-/

structure SessionRec where
  id : Nat
  userId : String
  tokenHash : String
  expiresAt : Nat
  createdAt : Nat
  deriving DecidableEq, Repr

/-- `PrismaDatabase.getValidSession` (src/utils/jwt.ts, second module,
lines 572–581) / `DatabaseAPI.getValidSession` (src/utils/auth.ts, second
module, lines 629–639): select the first session whose `token_hash` matches
and whose `expires_at` is strictly greater than the current time. -/
def getValidSession (now : Nat) (tokenHash : String) (sessions : List SessionRec) :
    Option SessionRec :=
  sessions.find? (fun s => s.tokenHash == tokenHash && decide (now < s.expiresAt))

/-- `PrismaDatabase.cleanupExpiredSessions` (src/utils/jwt.ts, second module,
lines 604–612) / `DatabaseAPI.cleanupExpiredSessions` (src/utils/auth.ts,
second module, lines 650–657): `DELETE FROM user_sessions WHERE expires_at <
NOW()` — keep exactly the rows whose `expires_at` is not in the past. -/
def cleanupExpiredSessions (now : Nat) (sessions : List SessionRec) :
    List SessionRec :=
  sessions.filter (fun s => !(decide (s.expiresAt < now)))

/-- `PrismaDatabase.deleteSession` (src/utils/jwt.ts, second module, lines
592–596) / `DatabaseAPI.deleteSession`: delete the sessions whose
`token_hash` equals the given hash. -/
def deleteSession (tokenHash : String) (sessions : List SessionRec) :
    List SessionRec :=
  sessions.filter (fun s => !(s.tokenHash == tokenHash))

/-- `PrismaDatabase.deleteUserSessions` (src/utils/jwt.ts, second module,
lines 598–602): `deleteMany` of all sessions belonging to a user. -/
def deleteUserSessions (userId : String) (sessions : List SessionRec) :
    List SessionRec :=
  sessions.filter (fun s => !(s.userId == userId))

/-! ## Chat store: chats and participants (direct-chat lookup and creation)

`chats` and `chat_participants` rows.  Chat ids are database-generated unique
ids (`gen_random_uuid()` / `chat_${Date.now()}_${random}` in the sources);
the model generates them from a fresh counter `nextChatId`, which captures
exactly the uniqueness the generation schemes provide.  Fields not touched by
the modelled operations (`name`, `avatar_url`, timestamps, `is_muted`,
`joined_at`) are omitted.
-/

structure ChatRec where
  id : Nat
  isGroup : Bool
  deriving DecidableEq, Repr

structure PartRec where
  chatId : Nat
  userId : String
  role : String
  deriving DecidableEq, Repr

structure ChatDB where
  chats : List ChatRec
  participants : List PartRec
  nextChatId : Nat
  deriving Repr

/-- The row predicate of `DatabaseAPI.findDirectChat` (src/utils/auth.ts,
second module, lines 560–581): the chat is not a group chat, each of the two
users occurs among its participant rows, and it has exactly two participant
rows in total (`MockDatabase.findDirectChat` and
`PrismaDatabase.findDirectChat` test the same three conditions). -/
def isDirectChatFor (parts : List PartRec) (u1 u2 : String) (c : ChatRec) : Bool :=
  !c.isGroup
    && parts.any (fun p => p.chatId == c.id && p.userId == u1)
    && parts.any (fun p => p.chatId == c.id && p.userId == u2)
    && (parts.filter (fun p => p.chatId == c.id)).length == 2

/-- `DatabaseAPI.findDirectChat(userId1, userId2)`: return the first chat
satisfying the predicate (the SQL query has no ORDER BY; the list order is
insertion order). -/
def findDirectChat (db : ChatDB) (u1 u2 : String) : Option ChatRec :=
  db.chats.find? (isDirectChatFor db.participants u1 u2)

/-- `createChat` of the `useChats` hook (src/unnamed/part_009, lines 35–55):
`db.createChat(isGroup, name)` inserts a chat row, then one participant row
per member of `[user.id, ...participantIds]`, the creator with role
`admin` and the rest with role `member`. -/
def createChat (db : ChatDB) (isGroup : Bool) (creator : String)
    (others : List String) : ChatRec × ChatDB :=
  let c : ChatRec := ⟨db.nextChatId, isGroup⟩
  (c, ⟨db.chats ++ [c],
       db.participants ++
         (⟨c.id, creator, "admin"⟩ :: others.map (fun u => ⟨c.id, u, "member"⟩)),
       db.nextChatId + 1⟩)

/-- `findOrCreateDirectChat` of the `useChats` hook (src/unnamed/part_009,
lines 57–74): look up an existing direct chat between the two users; if one
exists return it, otherwise create a fresh two-participant non-group chat. -/
def findOrCreateDirectChat (db : ChatDB) (me other : String) : ChatRec × ChatDB :=
  match findDirectChat db me other with
  | some c => (c, db)
  | none => createChat db false me [other]

/-- Well-formedness of the chat store that the fresh-id generation scheme
maintains: every stored chat id and participant chat id is below the
fresh-id counter. -/
def ChatDB.WF (db : ChatDB) : Prop :=
  (∀ c ∈ db.chats, c.id < db.nextChatId) ∧
  (∀ p ∈ db.participants, p.chatId < db.nextChatId)

/-! ## Chat store: messages and the last-message cache -/

structure MsgChatRec where
  id : Nat
  isGroup : Bool
  lastMessage : Option String
  lastMessageAt : Option Nat
  deriving DecidableEq, Repr

structure MsgRec where
  id : String
  chatId : Nat
  senderId : String
  content : String
  messageType : String
  createdAt : Nat
  deriving DecidableEq, Repr

structure MsgDB where
  chats : List MsgChatRec
  messages : List MsgRec
  deriving Repr

/-- `DatabaseAPI.createMessage` (src/utils/auth.ts, second module, lines
604–614) executed against the repository's Neon schema (`neon-schema.sql`,
staged in src/polyfills.js, lines 493–509): the `INSERT INTO messages
(chat_id, sender_id, content, message_type) ... RETURNING *` fires the
`on_message_created` AFTER INSERT trigger, whose `update_chat_last_message()`
runs `UPDATE chats SET last_message = NEW.content, last_message_at =
NEW.created_at ... WHERE id = NEW.chat_id` — within the same transaction as
the insert.  The database-generated row id and `created_at` timestamp are
the `newId` and `now` parameters. -/
def dbApiCreateMessage (db : MsgDB) (chatId : Nat) (senderId content messageType : String)
    (newId : String) (now : Nat) : MsgRec × MsgDB :=
  let m : MsgRec := ⟨newId, chatId, senderId, content, messageType, now⟩
  (m, { chats := db.chats.map (fun c =>
          if c.id == chatId then
            { c with lastMessage := some content, lastMessageAt := some m.createdAt }
          else c),
        messages := db.messages ++ [m] })

/-- `PrismaDatabase.createMessage` (src/utils/jwt.ts, second module, lines
492–529): inside one `$transaction`, insert the message row and then update
the chat row, setting `lastMessage` to the message content and
`lastMessageAt` to the message's `createdAt`. -/
def prismaCreateMessage (db : MsgDB) (chatId : Nat) (senderId content messageType : String)
    (newId : String) (now : Nat) : MsgRec × MsgDB :=
  let m : MsgRec := ⟨newId, chatId, senderId, content, messageType, now⟩
  (m, { chats := db.chats.map (fun c =>
          if c.id == chatId then
            { c with lastMessage := some content, lastMessageAt := some m.createdAt }
          else c),
        messages := db.messages ++ [m] })

/-- Message order used by `getChatMessages`: non-decreasing `createdAt`. -/
def msgLe (m1 m2 : MsgRec) : Prop := m1.createdAt ≤ m2.createdAt

instance : DecidableRel msgLe := fun m1 m2 => Nat.decLe m1.createdAt m2.createdAt

instance : IsTotal MsgRec msgLe := ⟨fun m1 m2 => Nat.le_total m1.createdAt m2.createdAt⟩

instance : IsTrans MsgRec msgLe := ⟨fun _ _ _ h1 h2 => Nat.le_trans h1 h2⟩

instance : IsRefl MsgRec msgLe := ⟨fun m => Nat.le_refl m.createdAt⟩

/-- `DatabaseAPI.getChatMessages(chatId, limit)` (src/utils/auth.ts, second
module, lines 584–602) / `PrismaDatabase.getChatMessages` (src/utils/jwt.ts,
second module, lines 474–490): select the chat's messages ordered by
`created_at ASC`, limited to `limit` rows.  The sort is modelled as a stable
sort on `createdAt` (rows tied on `created_at` keep their relative stored
order; the query has no further sort key). -/
def getChatMessages (db : MsgDB) (chatId : Nat) (limit : Nat) : List MsgRec :=
  ((db.messages.filter (fun m => m.chatId == chatId)).insertionSort msgLe).take limit

/-- The order relation the specification claims for listed messages:
lexicographically non-decreasing `(createdAt, id)` (ids compared as their
character sequences). -/
def createdAtIdLe (m1 m2 : MsgRec) : Prop :=
  m1.createdAt < m2.createdAt ∨
    (m1.createdAt = m2.createdAt ∧ m1.id.toList ≤ m2.id.toList)

instance : DecidableRel createdAtIdLe := fun m1 m2 =>
  inferInstanceAs (Decidable
    (m1.createdAt < m2.createdAt ∨
      (m1.createdAt = m2.createdAt ∧ m1.id.toList ≤ m2.id.toList)))

/-! ## JWT utilities (`JWTUtils` in src/utils/jwt.ts, lines 13–71)

A JavaScript string is modelled as a list of code units (`Str`).  A token is
the list of its dot-separated parts (`encode` joins three base64 parts with
`'.'` and `decode` splits on `'.'`; base64 output never contains a dot, so
join/split is a bijection between well-formed tokens and part lists).  The
composite `btoa(JSON.stringify payload)` is an injective serialization of the
payload with a decoding partial inverse (`atob` / `JSON.parse`, whose
failures throw); it is modelled by the concrete length-prefixed serialization
`encodePayloadStr` / `decodePayloadStr`. -/

abbrev Str : Type := List Nat

/-- `JWTPayload` (src/utils/jwt.ts, lines 6–11). -/
structure JWTPayload where
  userId : Str
  email : Str
  iat : Nat
  exp : Nat
  deriving DecidableEq

/-- Model of `btoa(JSON.stringify payload)`: an injective serialization of
the payload into one dot-free token part. -/
def encodePayloadStr (p : JWTPayload) : Str :=
  List.length p.userId :: (p.userId ++ (List.length p.email :: (p.email ++ [p.iat, p.exp])))

/-- Model of `JSON.parse(atob(part))` on a token part: the partial inverse of
`encodePayloadStr`; `none` stands for the exception the source throws on
malformed input. -/
def decodePayloadStr (s : Str) : Option JWTPayload :=
  match s with
  | [] => none
  | n :: rest =>
    match List.drop n rest with
    | [] => none
    | m :: rest2 =>
      match List.drop m rest2 with
      | [iat, exp] => some ⟨List.take n rest, List.take m rest2, iat, exp⟩
      | _ => none

/-- The constant first token part `btoa(JSON.stringify({alg:'HS256',typ:'JWT'}))`. -/
def headerPart : Str := [0]

/-- `JWTUtils.encode(payload)` (lines 17–24): the three dot-separated parts —
encoded header, encoded payload, and the "signature"
`btoa(header + '.' + payload + '.' + secret)`. -/
def jwtEncode (secret : Str) (p : JWTPayload) : List Str :=
  [headerPart, encodePayloadStr p, headerPart ++ encodePayloadStr p ++ secret]

/-- The body of the `try` block of `JWTUtils.decode(token)` (lines 27–40):
require exactly three dot-separated parts, parse the payload part, and throw
`'Token expired'` when the payload has a non-zero `exp` with
`Date.now() >= exp * 1000`.  Each `Except.error` is a thrown exception. -/
def jwtDecodeAux (nowMs : Nat) (parts : List Str) : Except String JWTPayload :=
  match parts with
  | [_, pl, _] =>
    match decodePayloadStr pl with
    | none => Except.error "Invalid payload"
    | some p =>
      if p.exp ≠ 0 ∧ p.exp * 1000 ≤ nowMs then Except.error "Token expired"
      else Except.ok p
  | _ => Except.error "Invalid token format"

/-- `JWTUtils.decode(token)` (lines 26–44): the `try/catch` wrapper — any
exception thrown inside the `try` block (malformed input *and* the internal
`'Token expired'` throw alike) is caught and re-thrown as `'Invalid token'`. -/
def jwtDecode (nowMs : Nat) (parts : List Str) : Except String JWTPayload :=
  match jwtDecodeAux nowMs parts with
  | Except.ok p => Except.ok p
  | Except.error _ => Except.error "Invalid token"

/-- `JWTUtils.createToken(userId, email, expiresInHours)` (lines 55–65):
`iat = floor(Date.now() / 1000)`, `exp = iat + expiresInHours * 3600`. -/
def createToken (secret : Str) (nowMs : Nat) (userId email : Str)
    (expiresInHours : Nat) : List Str :=
  jwtEncode secret ⟨userId, email, nowMs / 1000, nowMs / 1000 + expiresInHours * 3600⟩

/-- `JWTUtils.refreshToken(token, expiresInHours)` (lines 67–70): decode the
old token (propagating its exception when it fails) and create a fresh token
for the same `userId`/`email`. -/
def refreshToken (secret : Str) (nowMs : Nat) (parts : List Str)
    (expiresInHours : Nat) : Except String (List Str) :=
  match jwtDecode nowMs parts with
  | Except.error e => Except.error e
  | Except.ok p => Except.ok (createToken secret nowMs p.userId p.email expiresInHours)

/-! ## AuthService (src/utils/auth.ts, third module, lines 858–1116)

`AuthService` signs tokens with the external `jsonwebtoken` library.  A
signed token is modelled as the data the library binds: the payload
(`userId`), the expiry (`exp`, in seconds), and which secret produced the
signature; `jwt.verify(token, secret)` succeeds exactly when the signature
matches the secret and the token is unexpired, and `jwt.sign({userId},
secret, {expiresIn: '7d'})` stamps `exp = now + 7*24*3600`.  `bcrypt.compare`
is threaded as an explicit comparison function. -/

structure SignedToken where
  userId : String
  exp : Nat
  secret : String
  deriving DecidableEq, Repr

/-- `jsonwebtoken`'s `jwt.verify(token, secret)`: `some userId` on a valid
unexpired signature, `none` for the thrown error otherwise. -/
def jwtVerifyLib (secret : String) (nowSec : Nat) (t : SignedToken) : Option String :=
  if t.secret == secret && decide (nowSec < t.exp) then some t.userId else none

/-- `AuthService.generateToken(userId)` (lines 1058–1064) with
`JWT_EXPIRES_IN = '7d'`. -/
def generateToken (secret : String) (userId : String) (nowSec : Nat) : SignedToken :=
  ⟨userId, nowSec + 7 * 24 * 3600, secret⟩

structure UserRec where
  id : String
  email : String
  passwordHash : String
  deriving DecidableEq, Repr

structure ProfileRec where
  id : String
  isOnline : Bool
  lastSeen : Option Nat
  deriving DecidableEq, Repr

structure AuthState where
  users : List UserRec
  profiles : List ProfileRec
  sessions : List SessionRec
  deriving Repr

/-- `AuthService.verifyToken(token)` (src/utils/auth.ts, third module, lines
1015–1029): `jwt.verify` the token, then look the decoded `userId` up in the
`users` table and return that user (or `null`).  Note that no session-table
lookup occurs on this path. -/
def verifyToken (secret : String) (nowSec : Nat) (st : AuthState)
    (t : SignedToken) : Option UserRec :=
  match jwtVerifyLib secret nowSec t with
  | none => none
  | some uid => st.users.find? (fun u => u.id == uid)

/-- `AuthService.signOut(token)` (src/utils/auth.ts, third module, lines
1032–1055): `jwt.verify` the presented token; on failure return `false` and
change nothing; on success `deleteMany` **all** sessions of the decoded
user (the source comment reads "Remove all sessions for this user"), set the
user's profile offline, and return `true`. -/
def signOut (secret : String) (nowSec : Nat) (st : AuthState)
    (t : SignedToken) : Bool × AuthState :=
  match jwtVerifyLib secret nowSec t with
  | none => (false, st)
  | some uid =>
    (true,
     { st with
        sessions := deleteUserSessions uid st.sessions,
        profiles := st.profiles.map (fun p =>
          if p.id == uid then { p with isOnline := false, lastSeen := some nowSec } else p) })

/-- `AuthService.signIn(email, password)` (src/utils/auth.ts, third module,
lines 949–1012): look the user up by email — if absent fail with
`'Invalid email or password'`; verify the password with `bcrypt.compare`
(threaded as `compare`) — if it does not match fail with the same
`'Invalid email or password'`; otherwise issue a 7-day token, store a session
(whose stored `tokenHash` — `bcrypt.hash(token, 10)` — and generated row id
are the `tokenHash`/`newSessId` parameters), set the profile online, and
succeed with the token.  (`MockAuthAPI.signIn`, lines 297–317, returns the
same single error message for both failure causes.) -/
def signIn (secret : String) (compare : String → String → Bool) (st : AuthState)
    (email password : String) (nowMs : Nat) (tokenHash : String) (newSessId : Nat) :
    Except String SignedToken × AuthState :=
  match st.users.find? (fun u => u.email == email) with
  | none => (Except.error "Invalid email or password", st)
  | some u =>
    if compare password u.passwordHash then
      let token := generateToken secret u.id (nowMs / 1000)
      (Except.ok token,
       { st with
          sessions := st.sessions ++
            [⟨newSessId, u.id, tokenHash, nowMs + 7 * 24 * 3600 * 1000, nowMs⟩],
          profiles := st.profiles.map (fun p =>
            if p.id == u.id then { p with isOnline := true, lastSeen := some nowMs } else p) })
    else (Except.error "Invalid email or password", st)

/-! ## Password utilities (`PasswordUtils` in src/utils/jwt.ts, lines 75–89)

`hash(password)` is the lowercase-hex rendering of
`SHA-256(password + config.jwtSecret)`; the SHA-256 digest itself (an
external primitive, `crypto.subtle.digest`) is threaded as an explicit
byte-sequence function `digest`, and `TextEncoder.encode` as the code-unit
sequence of the string.  `verify(password, hash)` recomputes the hash of the
presented password and string-compares it with the stored one. -/

def hexDigitChar (n : Nat) : Char :=
  if n < 10 then Char.ofNat (48 + n) else Char.ofNat (87 + n)

/-- `b.toString(16).padStart(2, '0')` for a byte `b < 256`. -/
def byteToHex (b : Nat) : String :=
  String.mk [hexDigitChar (b / 16 % 16), hexDigitChar (b % 16)]

def bytesToHex (bs : List Nat) : String :=
  String.join (bs.map byteToHex)

def strUnits (s : String) : List Nat :=
  s.data.map Char.toNat

/-- `PasswordUtils.hash(password)` (lines 76–83). -/
def pwHash (digest : List Nat → List Nat) (secret : String) (password : String) : String :=
  bytesToHex (digest (strUnits (password ++ secret)))

/-- `PasswordUtils.verify(password, hash)` (lines 85–88). -/
def pwVerify (digest : List Nat → List Nat) (secret : String)
    (password stored : String) : Bool :=
  pwHash digest secret password == stored

end ChatBuddy

namespace ChatBuddy

/-- Helper: membership in the swept session list. -/
theorem mem_cleanupExpiredSessions (now : Nat) (sessions : List SessionRec)
    (s : SessionRec) :
    s ∈ cleanupExpiredSessions now sessions ↔ s ∈ sessions ∧ now ≤ s.expiresAt := by
  simp [cleanupExpiredSessions, List.mem_filter, Nat.not_lt]

/-- Helper: the payload serialization round-trips. -/
theorem decodePayloadStr_encode (p : JWTPayload) :
    decodePayloadStr (encodePayloadStr p) = some p := by
  simp [decodePayloadStr, encodePayloadStr, List.drop_left, List.take_left]

/-- C4: `getValidSession` only returns sessions whose expiry is strictly in
the future, and `cleanupExpiredSessions` at time `now` keeps exactly the
stored sessions with `expiresAt ≥ now`, preserving their order. -/
theorem session_expiry_correct :
    ∀ (sessions : List SessionRec) (now : Nat) (tokenHash : String) (s : SessionRec),
      (getValidSession now tokenHash sessions = some s → now < s.expiresAt) ∧
      (∀ t, t ∈ cleanupExpiredSessions now sessions ↔ t ∈ sessions ∧ now ≤ t.expiresAt) ∧
      (cleanupExpiredSessions now sessions).Sublist sessions := by
  intro sessions now tokenHash s
  refine ⟨fun h => ?_, fun t => mem_cleanupExpiredSessions now sessions t,
    List.filter_sublist sessions⟩
  have hp := List.find?_some h
  simp only [Bool.and_eq_true, decide_eq_true_eq] at hp
  exact hp.2

/-- C4 witness: a concrete valid session and a concrete sweep. -/
theorem session_expiry_correct_witness :
    5 < (SessionRec.mk 1 "u" "h" 10 0).expiresAt ∧
    SessionRec.mk 1 "u" "h" 10 0 ∈
      cleanupExpiredSessions 5 [SessionRec.mk 1 "u" "h" 10 0, SessionRec.mk 2 "u" "g" 3 0] :=
  ⟨(session_expiry_correct [SessionRec.mk 1 "u" "h" 10 0] 5 "h"
      (SessionRec.mk 1 "u" "h" 10 0)).1 (by decide),
   ((session_expiry_correct [SessionRec.mk 1 "u" "h" 10 0, SessionRec.mk 2 "u" "g" 3 0]
      5 "h" (SessionRec.mk 1 "u" "h" 10 0)).2.1 (SessionRec.mk 1 "u" "h" 10 0)).mpr
     (by decide)⟩

/-- C10: `PasswordUtils.verify` accepts the hash of the presented password,
and it accepts a stored hash exactly when the presented password hashes to
it — for every digest function, secret and password. -/
theorem pwVerify_roundtrip :
    ∀ (digest : List Nat → List Nat) (secret p p' stored : String),
      pwVerify digest secret p (pwHash digest secret p) = true ∧
      (pwVerify digest secret p' stored = true ↔ pwHash digest secret p' = stored) := by
  intro digest secret p p' stored
  constructor
  · simp [pwVerify]
  · simp [pwVerify]

/-- C9: sign-in failure is indistinguishable between an unknown email and a
wrong password: both runs return the identical generic error response and
leave the state unchanged. -/
theorem signIn_failure_indistinguishable :
    ∀ (secret : String) (compare : String → String → Bool) (st : AuthState)
      (e1 pw1 e2 pw2 : String) (u : UserRec) (nowMs : Nat)
      (th1 th2 : String) (sid1 sid2 : Nat),
      st.users.find? (fun w => w.email == e1) = none →
      st.users.find? (fun w => w.email == e2) = some u →
      compare pw2 u.passwordHash = false →
      signIn secret compare st e1 pw1 nowMs th1 sid1 =
        (Except.error "Invalid email or password", st) ∧
      signIn secret compare st e2 pw2 nowMs th2 sid2 =
        (Except.error "Invalid email or password", st) := by
  intro secret compare st e1 pw1 e2 pw2 u nowMs th1 th2 sid1 sid2 h1 h2 h3
  constructor
  · simp [signIn, h1]
  · simp [signIn, h2, h3]

/-- C9 witness: a concrete two-run instance — unregistered `a@x.com` versus
registered `b@x.com` with a wrong password. -/
theorem signIn_failure_indistinguishable_witness :
    signIn "s" (fun p h => p == h)
        (AuthState.mk [UserRec.mk "u1" "b@x.com" "pw1"] [] [])
        "a@x.com" "pw" 0 "th" 1 =
      (Except.error "Invalid email or password",
       AuthState.mk [UserRec.mk "u1" "b@x.com" "pw1"] [] []) ∧
    signIn "s" (fun p h => p == h)
        (AuthState.mk [UserRec.mk "u1" "b@x.com" "pw1"] [] [])
        "b@x.com" "wrong" 0 "th" 1 =
      (Except.error "Invalid email or password",
       AuthState.mk [UserRec.mk "u1" "b@x.com" "pw1"] [] []) :=
  signIn_failure_indistinguishable "s" (fun p h => p == h)
    (AuthState.mk [UserRec.mk "u1" "b@x.com" "pw1"] [] [])
    "a@x.com" "pw" "b@x.com" "wrong" (UserRec.mk "u1" "b@x.com" "pw1") 0 "th" "th" 1 1
    (by decide) (by decide) (by decide)

/-- C5 counterexample: a structurally valid, unexpired token whose session
records have all been deleted (the session table is empty) is still accepted
by `AuthService.verifyToken`, which returns the user instead of failing. -/
theorem verifyToken_revoked_accepted_cex :
    (AuthState.mk [UserRec.mk "u1" "a@x.com" "h"] [] []).sessions = [] ∧
    verifyToken "s" 100 (AuthState.mk [UserRec.mk "u1" "a@x.com" "h"] [] [])
        (SignedToken.mk "u1" 200 "s") =
      some (UserRec.mk "u1" "a@x.com" "h") := by
  constructor
  · rfl
  · rfl

/-- C5 amended: `verifyToken` checks only the token's signature and expiry
and the existence of the user; it never consults the session table, so a
valid unexpired token of an existing user verifies successfully — yielding
the user — even when no session of that user is stored (revocation). -/
theorem verifyToken_ignores_sessions :
    ∀ (secret : String) (nowSec : Nat) (st : AuthState) (t : SignedToken) (u : UserRec),
      t.secret = secret →
      nowSec < t.exp →
      st.users.find? (fun w => w.id == t.userId) = some u →
      (∀ s ∈ st.sessions, s.userId ≠ t.userId) →
      verifyToken secret nowSec st t = some u := by
  intro secret nowSec st t u hsec hexp hfind _
  simp [verifyToken, jwtVerifyLib, hsec, hexp, hfind]

/-- C5 witness: the amended theorem at a concrete state with one session of
a different user. -/
theorem verifyToken_ignores_sessions_witness :
    verifyToken "s" 100
        (AuthState.mk [UserRec.mk "u1" "a@x.com" "h"] []
          [SessionRec.mk 7 "u2" "hh" 900 0])
        (SignedToken.mk "u1" 200 "s") =
      some (UserRec.mk "u1" "a@x.com" "h") :=
  verifyToken_ignores_sessions "s" 100
    (AuthState.mk [UserRec.mk "u1" "a@x.com" "h"] [] [SessionRec.mk 7 "u2" "hh" 900 0])
    (SignedToken.mk "u1" 200 "s") (UserRec.mk "u1" "a@x.com" "h")
    (by decide) (by decide) (by decide) (by decide)

/-- C3 counterexample: the token issued at time 0 with a 1-hour ttl, decoded
at `Date.now() = 4000000` (past its expiry `3600000`), fails with the generic
`'Invalid token'` error, not with `'Token expired'`: `JWTUtils.decode`'s
`catch` block swallows the internal `'Token expired'` throw. -/
theorem jwtDecode_expired_generic_error_cex :
    jwtDecode 4000000 (createToken [9] 0 [1] [2] 1) = Except.error "Invalid token" ∧
    jwtDecode 4000000 (createToken [9] 0 [1] [2] 1) ≠ Except.error "Token expired" := by
  have h1 : jwtDecode 4000000 (createToken [9] 0 [1] [2] 1) =
      Except.error "Invalid token" := rfl
  refine ⟨h1, ?_⟩
  rw [h1]
  intro h
  exact absurd (Except.error.inj h) (by decide)

/-- C3 amended: decoding the token issued by `createToken(userId, email,
h)` with `h > 0` before its expiry instant succeeds and yields the original
`userId` (and `email`, `iat`, `exp`); decoding it at or after the expiry
instant fails, but with the generic `'Invalid token'` error rather than a
distinguishable `'Token expired'` error. -/
theorem createToken_roundtrip_expiry :
    ∀ (secret : Str) (nowMs now2 : Nat) (userId email : Str) (h : Nat),
      0 < h →
      (now2 < (nowMs / 1000 + h * 3600) * 1000 →
        jwtDecode now2 (createToken secret nowMs userId email h) =
          Except.ok (JWTPayload.mk userId email (nowMs / 1000) (nowMs / 1000 + h * 3600))) ∧
      ((nowMs / 1000 + h * 3600) * 1000 ≤ now2 →
        jwtDecode now2 (createToken secret nowMs userId email h) =
          Except.error "Invalid token") := by
  intro secret nowMs now2 userId email h hh
  have hdec := decodePayloadStr_encode
    (JWTPayload.mk userId email (nowMs / 1000) (nowMs / 1000 + h * 3600))
  constructor
  · intro hlt
    have hnotle : ¬ ((nowMs / 1000 + h * 3600) * 1000 ≤ now2) := Nat.not_le.mpr hlt
    simp [jwtDecode, jwtDecodeAux, createToken, jwtEncode, hdec, hnotle]
  · intro hge
    have hh0 : h ≠ 0 := by omega
    simp [jwtDecode, jwtDecodeAux, createToken, jwtEncode, hdec, hh0, hge]

/-- C3 witness: the amended theorem at concrete inputs — an unexpired decode
yielding the original payload and an expired decode failing generically. -/
theorem createToken_roundtrip_expiry_witness :
    jwtDecode 1000 (createToken [9] 0 [1] [2] 1) =
      Except.ok (JWTPayload.mk [1] [2] 0 3600) ∧
    jwtDecode 4000000 (createToken [9] 0 [1] [2] 1) =
      Except.error "Invalid token" :=
  ⟨(createToken_roundtrip_expiry [9] 0 1000 [1] [2] 1 (by decide)).1 (by decide),
   (createToken_roundtrip_expiry [9] 0 4000000 [1] [2] 1 (by decide)).2 (by decide)⟩

/-- C6 counterexample: refreshing an unexpired token succeeds and returns a
freshly dated token, yet the *old* token still decodes successfully at the
very same instant — no session record is invalidated (`JWTUtils.refreshToken`
touches no session state), so the old token can still be used. -/
theorem refreshToken_old_token_still_usable_cex :
    refreshToken [9] 1000000 (createToken [9] 0 [1] [2] 2) 24 =
      Except.ok (createToken [9] 1000000 [1] [2] 24) ∧
    jwtDecode 1000000 (createToken [9] 0 [1] [2] 2) =
      Except.ok (JWTPayload.mk [1] [2] 0 7200) :=
  ⟨rfl, rfl⟩

/-- C6 amended: `refreshToken` succeeds exactly when the original token still
decodes (it propagates decode's failure, so an expired original makes it
fail), and on success it merely returns `createToken` output for the same
`userId`/`email` — it performs no session-record invalidation or creation,
and the original token remains decodable until its own expiry. -/
theorem refreshToken_no_rotation :
    ∀ (secret : Str) (nowMs : Nat) (parts : List Str) (hours : Nat),
      (∀ p, jwtDecode nowMs parts = Except.ok p →
        refreshToken secret nowMs parts hours =
          Except.ok (createToken secret nowMs p.userId p.email hours)) ∧
      (∀ e, jwtDecode nowMs parts = Except.error e →
        refreshToken secret nowMs parts hours = Except.error e) := by
  intro secret nowMs parts hours
  constructor
  · intro p hp
    simp [refreshToken, hp]
  · intro e he
    simp [refreshToken, he]

/-- C6 witness: the amended theorem applied to a concrete unexpired token and
a concrete expired one. -/
theorem refreshToken_no_rotation_witness :
    refreshToken [9] 1000000 (createToken [9] 0 [1] [2] 2) 24 =
      Except.ok (createToken [9] 1000000 [1] [2] 24) ∧
    refreshToken [9] 9000000 (createToken [9] 0 [1] [2] 2) 24 =
      Except.error "Invalid token" :=
  ⟨(refreshToken_no_rotation [9] 1000000 (createToken [9] 0 [1] [2] 2) 24).1
     (JWTPayload.mk [1] [2] 0 7200) rfl,
   (refreshToken_no_rotation [9] 9000000 (createToken [9] 0 [1] [2] 2) 24).2
     "Invalid token" rfl⟩

/-- C7 counterexample: user `u1` holds two sessions and presents the token of
the first; `signOut` deletes *both* of `u1`'s sessions (only `u2`'s session
survives), so the user's other session does not remain as the claim states. -/
theorem signOut_removes_other_sessions_cex :
    (signOut "s" 100
        (AuthState.mk [] []
          [SessionRec.mk 1 "u1" "hA" 1000 0, SessionRec.mk 2 "u1" "hB" 1000 0,
           SessionRec.mk 3 "u2" "hC" 1000 0])
        (SignedToken.mk "u1" 500 "s")).2.sessions =
      [SessionRec.mk 3 "u2" "hC" 1000 0] ∧
    SessionRec.mk 2 "u1" "hB" 1000 0 ∉
      (signOut "s" 100
        (AuthState.mk [] []
          [SessionRec.mk 1 "u1" "hA" 1000 0, SessionRec.mk 2 "u1" "hB" 1000 0,
           SessionRec.mk 3 "u2" "hC" 1000 0])
        (SignedToken.mk "u1" 500 "s")).2.sessions := by
  constructor
  · rfl
  · decide

/-- C7 amended: `signOut` with a token that verifies deletes **all** sessions
of the token's user unconditionally (revokeAll behaviour, not just the
presented session), while every session of every other user is preserved. -/
theorem signOut_revokes_all_sessions_of_user :
    ∀ (secret : String) (nowSec : Nat) (st : AuthState) (t : SignedToken) (uid : String),
      jwtVerifyLib secret nowSec t = some uid →
      (signOut secret nowSec st t).1 = true ∧
      (signOut secret nowSec st t).2.sessions = deleteUserSessions uid st.sessions ∧
      (∀ s ∈ st.sessions, s.userId ≠ uid → s ∈ (signOut secret nowSec st t).2.sessions) ∧
      (∀ s ∈ (signOut secret nowSec st t).2.sessions, s.userId ≠ uid ∧ s ∈ st.sessions) := by
  intro secret nowSec st t uid h
  have hfst : (signOut secret nowSec st t).1 = true := by simp [signOut, h]
  have hsnd : (signOut secret nowSec st t).2.sessions = deleteUserSessions uid st.sessions := by
    simp [signOut, h]
  refine ⟨hfst, hsnd, ?_, ?_⟩
  · intro s hs hne
    rw [hsnd]
    simp [deleteUserSessions, List.mem_filter, hs, hne]
  · intro s hs
    rw [hsnd] at hs
    simp only [deleteUserSessions, List.mem_filter, Bool.not_eq_true',
      beq_eq_false_iff_ne, ne_eq] at hs
    exact ⟨hs.2, hs.1⟩

/-- C7 witness: the amended theorem at the concrete three-session state. -/
theorem signOut_revokes_all_sessions_of_user_witness :
    (signOut "s" 100
        (AuthState.mk [] []
          [SessionRec.mk 1 "u1" "hA" 1000 0, SessionRec.mk 2 "u1" "hB" 1000 0,
           SessionRec.mk 3 "u2" "hC" 1000 0])
        (SignedToken.mk "u1" 500 "s")).1 = true :=
  (signOut_revokes_all_sessions_of_user "s" 100
    (AuthState.mk [] []
      [SessionRec.mk 1 "u1" "hA" 1000 0, SessionRec.mk 2 "u1" "hB" 1000 0,
       SessionRec.mk 3 "u2" "hC" 1000 0])
    (SignedToken.mk "u1" 500 "s") "u1" (by decide)).1

/-- C2: after `createMessage(chatId, senderId, content)` commits, every chat
row with that `chatId` carries `lastMessage = content` and `lastMessageAt`
equal to the inserted message's `createdAt`; chat rows of other chats are
untouched; the returned message has `createdAt = now` and is appended to the
message table; and the SQL path (insert + `on_message_created` trigger) is
the very same state transform as `PrismaDatabase.createMessage`'s explicit
`$transaction` (insert, then chat update). -/
theorem createMessage_lastMessage_consistent :
    ∀ (db : MsgDB) (chatId : Nat) (senderId content messageType newId : String)
      (now : Nat),
      (∀ c ∈ (dbApiCreateMessage db chatId senderId content messageType newId now).2.chats,
        c.id = chatId → c.lastMessage = some content ∧ c.lastMessageAt = some now) ∧
      (∀ c ∈ db.chats, c.id ≠ chatId →
        c ∈ (dbApiCreateMessage db chatId senderId content messageType newId now).2.chats) ∧
      (dbApiCreateMessage db chatId senderId content messageType newId now).1.createdAt =
        now ∧
      (dbApiCreateMessage db chatId senderId content messageType newId now).2.messages =
        db.messages ++
          [(dbApiCreateMessage db chatId senderId content messageType newId now).1] ∧
      dbApiCreateMessage db chatId senderId content messageType newId now =
        prismaCreateMessage db chatId senderId content messageType newId now := by
  intro db chatId senderId content messageType newId now
  refine ⟨?_, ?_, rfl, rfl, rfl⟩
  · intro c hc hid
    rcases List.mem_map.mp hc with ⟨c0, hc0, rfl⟩
    by_cases h0 : c0.id = chatId
    · simp [h0]
    · simp [h0] at hid
  · intro c hc hne
    apply List.mem_map.mpr
    exact ⟨c, hc, by simp [hne]⟩

/-- C2 witness: inserting `"hi"` into a store whose chat 1 has no last
message leaves chat 1 with `lastMessage = "hi"` and `lastMessageAt` equal to
the message's `createdAt`. -/
theorem createMessage_lastMessage_consistent_witness :
    MsgChatRec.mk 1 false (some "hi") (some 100) ∈
      (dbApiCreateMessage (MsgDB.mk [MsgChatRec.mk 1 false none none] [])
        1 "u1" "hi" "text" "m1" 100).2.chats ∧
    (MsgChatRec.mk 1 false (some "hi") (some 100)).lastMessage = some "hi" ∧
    (MsgChatRec.mk 1 false (some "hi") (some 100)).lastMessageAt = some 100 :=
  ⟨by decide,
   (createMessage_lastMessage_consistent (MsgDB.mk [MsgChatRec.mk 1 false none none] [])
      1 "u1" "hi" "text" "m1" 100).1
     (MsgChatRec.mk 1 false (some "hi") (some 100)) (by decide) (by decide)⟩

/-- C8 counterexample: two messages of chat 1 stored with the same
`createdAt` but ids out of lexicographic order (`"b"` inserted before
`"a"`) — `getChatMessages` returns them in stored order, which is *not*
non-decreasing in `(createdAt, id)`: the query sorts by `created_at` only,
with no id tiebreak. -/
theorem getChatMessages_not_id_ordered_cex :
    getChatMessages
        (MsgDB.mk [] [MsgRec.mk "b" 1 "u" "x" "text" 5, MsgRec.mk "a" 1 "u" "y" "text" 5])
        1 50 =
      [MsgRec.mk "b" 1 "u" "x" "text" 5, MsgRec.mk "a" 1 "u" "y" "text" 5] ∧
    ¬ List.Chain' createdAtIdLe
        (getChatMessages
          (MsgDB.mk [] [MsgRec.mk "b" 1 "u" "x" "text" 5, MsgRec.mk "a" 1 "u" "y" "text" 5])
          1 50) := by
  have h1 : getChatMessages
      (MsgDB.mk [] [MsgRec.mk "b" 1 "u" "x" "text" 5, MsgRec.mk "a" 1 "u" "y" "text" 5])
      1 50 =
      [MsgRec.mk "b" 1 "u" "x" "text" 5, MsgRec.mk "a" 1 "u" "y" "text" 5] := rfl
  refine ⟨h1, ?_⟩
  rw [h1]
  intro hch
  rcases (List.chain'_cons.mp hch).1 with h5 | ⟨-, hle⟩
  · exact absurd h5 (by decide)
  · exact absurd hle (by decide)

/-- C8 amended: `getChatMessages` always returns a page that is
non-decreasing in `createdAt` (oldest first); when the chat's stored messages
are already in non-decreasing `createdAt` order — as sequential posting
produces — listing returns exactly the first `limit` of them in posting
order; and appending a new message whose timestamp is no older than every
stored one keeps the store sorted. -/
theorem getChatMessages_ordering :
    ∀ (db : MsgDB) (chatId limit : Nat) (senderId content mt newId : String) (now : Nat),
      List.Chain' msgLe (getChatMessages db chatId limit) ∧
      (List.Sorted msgLe (db.messages.filter (fun m => m.chatId == chatId)) →
        getChatMessages db chatId limit =
          (db.messages.filter (fun m => m.chatId == chatId)).take limit) ∧
      (List.Sorted msgLe db.messages → (∀ m ∈ db.messages, m.createdAt ≤ now) →
        List.Sorted msgLe
          (dbApiCreateMessage db chatId senderId content mt newId now).2.messages) := by
  intro db chatId limit senderId content mt newId now
  refine ⟨?_, ?_, ?_⟩
  · have hs : List.Sorted msgLe
        ((db.messages.filter (fun m => m.chatId == chatId)).insertionSort msgLe) :=
      List.sorted_insertionSort msgLe _
    exact List.Pairwise.chain' (List.Pairwise.sublist (List.take_sublist limit _) hs)
  · intro hsorted
    unfold getChatMessages
    rw [List.Sorted.insertionSort_eq hsorted]
  · intro hsorted hbound
    refine List.pairwise_append.mpr ⟨hsorted, List.sorted_singleton _, ?_⟩
    intro x hx y hy
    simp only [List.mem_singleton] at hy
    subst hy
    exact hbound x hx

/-- Helper: `find?` only depends on the predicate's values. -/
theorem find?_ext {α : Type} (p q : α → Bool) (h : ∀ a, p a = q a) :
    ∀ l : List α, l.find? p = l.find? q := by
  intro l
  induction l with
  | nil => rfl
  | cons a t ih =>
    by_cases hpa : p a = true
    · rw [List.find?_cons_of_pos _ hpa, List.find?_cons_of_pos _ (by rw [← h a]; exact hpa)]
    · rw [List.find?_cons_of_neg _ hpa, List.find?_cons_of_neg _ (by rw [← h a]; exact hpa), ih]

/-- Helper: the direct-chat predicate is symmetric in the two users. -/
theorem isDirectChatFor_symm (parts : List PartRec) (u1 u2 : String) (c : ChatRec) :
    isDirectChatFor parts u1 u2 c = isDirectChatFor parts u2 u1 c := by
  unfold isDirectChatFor
  cases hx : parts.any (fun p => p.chatId == c.id && p.userId == u1) <;>
    cases hy : parts.any (fun p => p.chatId == c.id && p.userId == u2) <;>
      simp [hx, hy]

/-- Helper: the direct-chat lookup is symmetric in the two users. -/
theorem findDirectChat_symm (db : ChatDB) (u1 u2 : String) :
    findDirectChat db u1 u2 = findDirectChat db u2 u1 :=
  find?_ext _ _ (isDirectChatFor_symm db.participants u1 u2) db.chats

/-- Helper: participant rows of a different chat do not affect the
direct-chat predicate. -/
theorem isDirectChatFor_append_fresh (parts new : List PartRec) (u1 u2 : String)
    (c : ChatRec) (h : ∀ p ∈ new, ¬ p.chatId = c.id) :
    isDirectChatFor (parts ++ new) u1 u2 c = isDirectChatFor parts u1 u2 c := by
  have hany : ∀ u : String,
      new.any (fun p => p.chatId == c.id && p.userId == u) = false := by
    intro u
    rw [List.any_eq_false]
    intro p hp
    simp [h p hp]
  have hfil : new.filter (fun p => p.chatId == c.id) = [] := by
    rw [List.filter_eq_nil_iff]
    intro p hp
    simp [h p hp]
  unfold isDirectChatFor
  rw [List.any_append, List.any_append, List.filter_append, hany, hany, hfil,
    List.append_nil, Bool.or_false, Bool.or_false]

/-- Helper: after creating the direct chat for `{A, B}` in a well-formed
store that had none, the lookup (in either user order) finds exactly the
freshly created chat. -/
theorem findDirectChat_after_create (db : ChatDB) (A B C D : String)
    (hwf : ChatDB.WF db)
    (hnone : findDirectChat db A B = none)
    (hCD : (C = A ∧ D = B) ∨ (C = B ∧ D = A)) :
    findDirectChat (createChat db false A [B]).2 C D =
      some ⟨db.nextChatId, false⟩ := by
  have hchats : (createChat db false A [B]).2.chats =
      db.chats ++ [⟨db.nextChatId, false⟩] := rfl
  have hparts : (createChat db false A [B]).2.participants =
      db.participants ++
        [⟨db.nextChatId, A, "admin"⟩, ⟨db.nextChatId, B, "member"⟩] := rfl
  unfold findDirectChat
  rw [hchats, hparts, List.find?_append]
  have hfresh : ∀ p : PartRec,
      p ∈ [(⟨db.nextChatId, A, "admin"⟩ : PartRec), ⟨db.nextChatId, B, "member"⟩] →
      ∀ x : ChatRec, x ∈ db.chats → ¬ p.chatId = x.id := by
    intro p hp x hx
    have hxid : x.id < db.nextChatId := hwf.1 x hx
    simp only [List.mem_cons, List.not_mem_nil, or_false] at hp
    rcases hp with rfl | rfl
    · show ¬ db.nextChatId = x.id
      omega
    · show ¬ db.nextChatId = x.id
      omega
  have hleft : db.chats.find?
      (isDirectChatFor
        (db.participants ++
          [(⟨db.nextChatId, A, "admin"⟩ : PartRec), ⟨db.nextChatId, B, "member"⟩])
        C D) = none := by
    rw [List.find?_eq_none]
    intro x hx
    rw [isDirectChatFor_append_fresh _ _ _ _ _ (fun p hp => hfresh p hp x hx)]
    have hCD2 : isDirectChatFor db.participants C D x =
        isDirectChatFor db.participants A B x := by
      rcases hCD with ⟨rfl, rfl⟩ | ⟨rfl, rfl⟩
      · rfl
      · exact isDirectChatFor_symm _ _ _ _
    rw [hCD2]
    exact List.find?_eq_none.mp hnone x hx
  rw [hleft, Option.none_or]
  have hCmem : C = A ∨ C = B := by
    rcases hCD with ⟨rfl, -⟩ | ⟨rfl, -⟩
    · exact Or.inl rfl
    · exact Or.inr rfl
  have hDmem : D = A ∨ D = B := by
    rcases hCD with ⟨-, rfl⟩ | ⟨-, rfl⟩
    · exact Or.inr rfl
    · exact Or.inl rfl
  have hfilnil : db.participants.filter (fun p => p.chatId == db.nextChatId) = [] := by
    rw [List.filter_eq_nil_iff]
    intro p hp
    have := hwf.2 p hp
    simp only [beq_eq_false_iff_ne, ne_eq, Bool.not_eq_true]
    omega
  have hpred : isDirectChatFor
      (db.participants ++
        [(⟨db.nextChatId, A, "admin"⟩ : PartRec), ⟨db.nextChatId, B, "member"⟩])
      C D ⟨db.nextChatId, false⟩ = true := by
    simp only [isDirectChatFor, List.any_append, List.filter_append]
    rcases hCmem with rfl | rfl <;> rcases hDmem with rfl | rfl <;>
      simp [hfilnil]
  exact List.find?_cons_of_pos _ hpred

/-- C1: `findOrCreateDirectChat` is an idempotent create — (i) when the
lookup finds an existing direct chat it is returned and the store is
unchanged; (ii) the lookup does find one whenever some stored non-group chat
has participant rows exactly `{A, B}`; (iii) after one call, a repeated call
for the same unordered pair (either argument order) creates no further chat. -/
theorem findOrCreateDirectChat_idempotent :
    ∀ (db : ChatDB) (A B : String) (c : ChatRec),
      ChatDB.WF db →
      (∀ c', findDirectChat db A B = some c' →
        findOrCreateDirectChat db A B = (c', db)) ∧
      (c ∈ db.chats → c.isGroup = false →
        List.Perm
          ((db.participants.filter (fun p => p.chatId == c.id)).map PartRec.userId)
          [A, B] →
        (findDirectChat db A B).isSome = true) ∧
      (∀ C D, ((C = A ∧ D = B) ∨ (C = B ∧ D = A)) →
        (findOrCreateDirectChat (findOrCreateDirectChat db A B).2 C D).2.chats =
          (findOrCreateDirectChat db A B).2.chats) := by
  intro db A B c hwf
  refine ⟨?_, ?_, ?_⟩
  · intro c' hc'
    simp [findOrCreateDirectChat, hc']
  · intro hmem hng hperm
    have hlen : (db.participants.filter (fun p => p.chatId == c.id)).length = 2 := by
      have h := hperm.length_eq
      simpa using h
    have hone : ∀ u : String, u ∈ ([A, B] : List String) →
        db.participants.any (fun p => p.chatId == c.id && p.userId == u) = true := by
      intro u hu
      have humem : u ∈ (db.participants.filter (fun p => p.chatId == c.id)).map
          PartRec.userId := hperm.mem_iff.mpr hu
      rcases List.mem_map.mp humem with ⟨p, hpf, hpu⟩
      rcases List.mem_filter.mp hpf with ⟨hpmem, hpc⟩
      exact List.any_eq_true.mpr ⟨p, hpmem, by simp [hpc, hpu]⟩
    apply List.find?_isSome.mpr
    refine ⟨c, hmem, ?_⟩
    have h2 := hone A (by simp)
    have h3 := hone B (by simp)
    simp [isDirectChatFor, hng, h2, h3, hlen]
  · intro C D hCD
    cases hfind : findDirectChat db A B with
    | some c0 =>
      have h1 : findOrCreateDirectChat db A B = (c0, db) := by
        simp [findOrCreateDirectChat, hfind]
      rw [h1]
      have hCD' : findDirectChat db C D = some c0 := by
        rcases hCD with ⟨rfl, rfl⟩ | ⟨rfl, rfl⟩
        · exact hfind
        · rw [findDirectChat_symm]; exact hfind
      simp [findOrCreateDirectChat, hCD']
    | none =>
      have h1 : findOrCreateDirectChat db A B = createChat db false A [B] := by
        simp [findOrCreateDirectChat, hfind]
      rw [h1]
      have hf := findDirectChat_after_create db A B C D hwf hfind hCD
      simp [findOrCreateDirectChat, hf]

/-- C1 witness: concretely, in a store already holding the direct chat of
`u1`/`u2`, the lookup succeeds, and a second call (in swapped order) after a
first call on an empty store adds no further chat. -/
theorem findOrCreateDirectChat_idempotent_witness :
    (findDirectChat
      (ChatDB.mk [ChatRec.mk 0 false]
        [PartRec.mk 0 "u1" "admin", PartRec.mk 0 "u2" "member"] 1)
      "u1" "u2").isSome = true ∧
    (findOrCreateDirectChat
        (findOrCreateDirectChat (ChatDB.mk [] [] 0) "u1" "u2").2 "u2" "u1").2.chats =
      (findOrCreateDirectChat (ChatDB.mk [] [] 0) "u1" "u2").2.chats :=
  ⟨(findOrCreateDirectChat_idempotent
      (ChatDB.mk [ChatRec.mk 0 false]
        [PartRec.mk 0 "u1" "admin", PartRec.mk 0 "u2" "member"] 1)
      "u1" "u2" (ChatRec.mk 0 false)
      (by constructor <;> decide)).2.1
      (by decide) (by decide) (by decide),
   (findOrCreateDirectChat_idempotent (ChatDB.mk [] [] 0) "u1" "u2"
      (ChatRec.mk 0 false) (by constructor <;> decide)).2.2 "u2" "u1"
      (Or.inr ⟨rfl, rfl⟩)⟩

/-- C8 witness: a chat whose two messages were posted at increasing times is
listed in posting order. -/
theorem getChatMessages_ordering_witness :
    getChatMessages
        (MsgDB.mk [] [MsgRec.mk "a" 1 "u" "x" "text" 1, MsgRec.mk "b" 1 "u" "y" "text" 2])
        1 50 =
      [MsgRec.mk "a" 1 "u" "x" "text" 1, MsgRec.mk "b" 1 "u" "y" "text" 2] :=
  ((getChatMessages_ordering
      (MsgDB.mk [] [MsgRec.mk "a" 1 "u" "x" "text" 1, MsgRec.mk "b" 1 "u" "y" "text" 2])
      1 50 "u" "c" "t" "i" 9).2.1 (by decide)).trans (by decide)

end ChatBuddy
